import Mathlib

/-!
Shallow embedding of the synk-backend user API (TypeScript/Express/Firebase).

Documents in the Firestore-like store are modelled as association lists of
field name to value; JavaScript object spread `\x7b...a, ...b\x7d` is modelled by
`mergeDocs`, with later fields overriding earlier ones with respect to field
lookup (`getField`).  External collaborators (the identity provider, bcrypt,
token verification, server timestamps, generated ids) are modelled as explicit
parameters or small concrete placeholders, as noted at each definition.

The repository carries two revisions of the generic DAO; the one the user
controller depends on (create/createWithId add `createdAt`/`updatedAt`
server timestamps, `delete` checks existence and returns a boolean) is the
revision embedded here.  An earlier superseded revision (no timestamps,
`delete` returning void) also appears in the sources; `UserController.delete`
explicitly relies on the boolean-returning revision.
-/

/-- A Firestore field value (the shapes actually used by this backend). -/
inductive Value where
  | str (s : String)
  | num (n : Int)
  | time (t : Nat)
  | strList (l : List String)
  deriving DecidableEq, Repr

/-- A document: an ordered association list of field name to value. -/
abbrev Doc := List (String × Value)

/-- A collection: an association list of document id to document. -/
abbrev Store := List (String × Doc)

/-- First-match lookup in an association list (JS property access). -/
def lookupA {α : Type} (l : List (String × α)) (k : String) : Option α :=
  (l.find? (fun p => p.1 == k)).map (fun p => p.2)

/-- Insert/override a key (JS property assignment or spread override).
First-match lookup makes the fresh binding shadow any older one, which is
exactly the observable behaviour of the JS object operations modelled. -/
def insertA {α : Type} (l : List (String × α)) (k : String) (v : α) :
    List (String × α) :=
  (k, v) :: l

/-- Remove a key (Firestore document delete). -/
def removeA {α : Type} (l : List (String × α)) (k : String) :
    List (String × α) :=
  l.filter (fun p => p.1 != k)

/-- Field lookup in a document. -/
def getField (d : Doc) (k : String) : Option Value := lookupA d k

/-- JS object spread `\x7b...base, ...extra\x7d`: fields of `extra` override `base`. -/
def mergeDocs (base extra : Doc) : Doc :=
  extra.foldl (fun acc p => insertA acc p.1 p.2) base

/-- The keys of an association list. -/
def keysA {α : Type} (l : List (String × α)) : List String := l.map Prod.fst

theorem lookupA_insertA_self {α : Type} (l : List (String × α)) (k : String)
    (v : α) : lookupA (insertA l k v) k = some v := by
  simp [lookupA, insertA, List.find?]

theorem lookupA_insertA_ne {α : Type} (l : List (String × α)) (k k' : String)
    (v : α) (h : k' ≠ k) : lookupA (insertA l k v) k' = lookupA l k' := by
  have hk : (k == k') = false := by
    simp only [beq_eq_false_iff_ne, ne_eq]
    exact fun he => h he.symm
  simp [lookupA, insertA, List.find?, hk]

theorem lookupA_removeA_self {α : Type} (l : List (String × α)) (k : String) :
    lookupA (removeA l k) k = none := by
  induction l with
  | nil => rfl
  | cons p t ih =>
    by_cases hp : p.1 = k
    · have h1 : (p.1 != k) = false := by simp [hp]
      rw [removeA, List.filter_cons, h1]
      exact ih
    · have h1 : (p.1 != k) = true := by simp [hp]
      have h2 : (p.1 == k) = false := by simp [hp]
      rw [removeA, List.filter_cons, h1]
      simp only [if_true]
      simp only [lookupA, List.find?, h2]
      exact ih

theorem lookupA_removeA_ne {α : Type} (l : List (String × α)) (k k' : String)
    (h : k' ≠ k) : lookupA (removeA l k) k' = lookupA l k' := by
  induction l with
  | nil => rfl
  | cons p t ih =>
    by_cases hp : p.1 = k
    · have h1 : (p.1 != k) = false := by simp [hp]
      have h2 : (p.1 == k') = false := by
        simp only [beq_eq_false_iff_ne, ne_eq, hp]
        exact fun he => h he.symm
      rw [removeA, List.filter_cons, h1]
      simp only [if_false, Bool.false_eq_true]
      rw [show lookupA (p :: t) k' = lookupA t k' from by
        simp [lookupA, List.find?, h2]]
      exact ih
    · have h1 : (p.1 != k) = true := by simp [hp]
      rw [removeA, List.filter_cons, h1]
      simp only [if_true]
      by_cases hq : p.1 = k'
      · simp [lookupA, List.find?, hq]
      · have h2 : (p.1 == k') = false := by simp [hq]
        simp only [lookupA, List.find?, h2]
        exact ih

/-- A merge leaves alone every field whose key the override list lacks. -/
theorem getField_mergeDocs_not_mem (base extra : Doc) (k : String)
    (h : k ∉ keysA extra) : getField (mergeDocs base extra) k = getField base k := by
  induction extra generalizing base with
  | nil => rfl
  | cons p t ih =>
    have hk : k ∉ keysA t := fun hm => h (List.mem_cons_of_mem _ hm)
    have hp : k ≠ p.1 := fun he => h (by simp [keysA, he])
    calc getField (mergeDocs base (p :: t)) k
        = getField (mergeDocs (insertA base p.1 p.2) t) k := rfl
      _ = getField (insertA base p.1 p.2) k := ih _ hk
      _ = getField base k := lookupA_insertA_ne _ _ _ _ hp

/-- A merge installs every field of a duplicate-free override list. -/
theorem getField_mergeDocs_mem (base extra : Doc) (k : String)
    (hnd : (keysA extra).Nodup) (h : k ∈ keysA extra) :
    getField (mergeDocs base extra) k = getField extra k := by
  induction extra generalizing base with
  | nil => simp [keysA] at h
  | cons p t ih =>
    have hnd2 : p.1 ∉ keysA t ∧ (keysA t).Nodup := by
      rw [show keysA (p :: t) = p.1 :: keysA t from rfl] at hnd
      exact List.nodup_cons.mp hnd
    by_cases hp : k = p.1
    · have hkt : k ∉ keysA t := hp ▸ hnd2.1
      have h1 : getField (mergeDocs (insertA base p.1 p.2) t) k
          = getField (insertA base p.1 p.2) k := getField_mergeDocs_not_mem _ _ _ hkt
      have h2 : getField (insertA base p.1 p.2) k = some p.2 := by
        rw [hp]; exact lookupA_insertA_self _ _ _
      have h3 : getField (p :: t) k = some p.2 := by
        simp [getField, lookupA, List.find?, hp]
      calc getField (mergeDocs base (p :: t)) k
          = getField (mergeDocs (insertA base p.1 p.2) t) k := rfl
        _ = some p.2 := h1.trans h2
        _ = getField (p :: t) k := h3.symm
    · have hkt : k ∈ keysA t := by
        rw [show keysA (p :: t) = p.1 :: keysA t from rfl] at h
        rcases List.mem_cons.mp h with he | hm
        · exact absurd he hp
        · exact hm
      have hnd' : (keysA t).Nodup := hnd2.2
      have h3 : getField (p :: t) k = getField t k := by
        have h2 : (p.1 == k) = false := by simp; exact fun he => hp he.symm
        simp [getField, lookupA, List.find?, h2]
      calc getField (mergeDocs base (p :: t)) k
          = getField (mergeDocs (insertA base p.1 p.2) t) k := rfl
        _ = getField t k := ih _ hnd' hkt
        _ = getField (p :: t) k := h3.symm

theorem lookupA_eq_none_of_not_mem {α : Type} (l : List (String × α))
    (k : String) (h : k ∉ keysA l) : lookupA l k = none := by
  induction l with
  | nil => rfl
  | cons p t ih =>
    have hp : (p.1 == k) = false := by
      simp; exact fun he => h (by simp [keysA, he])
    have ht : k ∉ keysA t := fun hm => h (List.mem_cons_of_mem _ hm)
    simp [lookupA, List.find?, hp] at ih ⊢
    exact ih ht

/-! ## Generic DAO (src/api/dao: `GlobalDAO`, the revision used by the controller)

`db.collection('users')` is one `Store`; `FieldValue.serverTimestamp()` is the
explicit `now : Nat` parameter; the id generated by `collection.add` is the
explicit `genId` parameter. -/

namespace GlobalDAO

/-- `create(doc)`: spreads `doc`, adds `createdAt`/`updatedAt` server
timestamps, inserts under the generated id and returns that id. -/
def create (s : Store) (genId : String) (doc : Doc) (now : Nat) :
    String × Store :=
  let data := mergeDocs doc [("createdAt", Value.time now), ("updatedAt", Value.time now)]
  (genId, insertA s genId data)

/-- `getById(id)`: `null` when the document does not exist, else
`\x7b id: doc.id, ...(data || \x7b\x7d) \x7d` — note the stored data is spread after the
`id` key, so a stored `id` field overrides the document key. -/
def getById (s : Store) (id : String) : Option Doc :=
  match lookupA s id with
  | none => none
  | some data => some (mergeDocs [("id", Value.str id)] data)

/-- `update(id, data)`: Firestore `update` of `\x7b ...data, updatedAt: now \x7d`;
it merges the patch into the existing document and fails (none) when the
document does not exist. -/
def update (s : Store) (id : String) (data : Doc) (now : Nat) : Option Store :=
  match lookupA s id with
  | none => none
  | some d =>
      some (insertA s id (mergeDocs d (data ++ [("updatedAt", Value.time now)])))

/-- `delete(id)`: reads the document first; returns `false` leaving the store
alone when it does not exist, else deletes it and returns `true`. -/
def delete (s : Store) (id : String) : Bool × Store :=
  match lookupA s id with
  | none => (false, s)
  | some _ => (true, removeA s id)

end GlobalDAO

/-! ## Identity provider (Firebase Auth, external collaborator)

The provider's user table is a list of auth users; `getUserByEmail`,
`createUser` and `deleteUser` act on it.  Failures of the provider's calls
are injected through explicit boolean parameters at each call site. -/

/-- An identity-provider (Firebase Auth) user record. -/
structure AuthUser where
  uid : String
  email : String
  displayName : String
  password : String
  deriving DecidableEq, Repr

/-- The identity provider's user table. -/
abbrev AuthState := List AuthUser

/-- `auth.getUserByEmail(email)` resolving successfully. -/
def getAuthUserByEmail (a : AuthState) (email : String) : Option AuthUser :=
  a.find? (fun u => u.email == email)

/-- `auth.deleteUser(uid)`. -/
def removeAuthUser (a : AuthState) (uid : String) : AuthState :=
  a.filter (fun u => u.uid != uid)

/-- A decoded Firebase ID token as `auth.verifyIdToken` returns it:
`uid`, optional `email`, `name`, `picture` and `firebase.sign_in_provider`. -/
structure DecodedToken where
  uid : String
  email : Option String
  name : Option String
  picture : Option String
  provider : Option String
  deriving DecidableEq, Repr

/-- The identity provider's token verification, abstract: `none` models
`verifyIdToken` throwing (invalid/expired token). -/
abbrev Verifier := String → Option DecodedToken

/-! ## JS string methods

The JS string methods the controllers use, embedded as structural functions
over `List Char` so that every theorem and witness is kernel-computable. -/

/-- The whitespace characters relevant to `String.prototype.trim` here. -/
def isJsSpace (c : Char) : Bool :=
  c == ' ' || c == '\t' || c == '\n' || c == '\r'

/-- Drop leading whitespace from a character list. -/
def trimLeftChars : List Char → List Char
  | [] => []
  | c :: cs => if isJsSpace c then trimLeftChars cs else c :: cs

/-- `s.trim()`. -/
def jsTrim (s : String) : String :=
  ⟨(trimLeftChars (trimLeftChars s.data).reverse).reverse⟩

/-- Does the character list `cs` start with `p`? -/
def leadsWith : List Char → List Char → Bool
  | [], _ => true
  | _ :: _, [] => false
  | p :: ps, c :: cs => p == c && leadsWith ps cs

/-- `s.startsWith(p)`. -/
def jsStartsWith (s p : String) : Bool := leadsWith p.data s.data

/-- `s.endsWith(p)`. -/
def jsEndsWith (s p : String) : Bool := leadsWith p.data.reverse s.data.reverse

/-- `s.slice(n)` for a non-negative `n`. -/
def jsDrop (s : String) (n : Nat) : String := ⟨s.data.drop n⟩

/-- `s.slice(0, -1)`: everything but the last character. -/
def jsDropLast (s : String) : String := ⟨s.data.dropLast⟩

/-- `String.prototype.split` on a one-character separator; the empty string
splits to `[""]`, exactly as in JS. -/
def splitChar (sep : Char) : List Char → List (List Char)
  | [] => [[]]
  | c :: rest =>
    match splitChar sep rest with
    | [] => [[]]
    | h :: t => if c == sep then [] :: h :: t else (c :: h) :: t

/-- `s.split(sep)` for a one-character separator. -/
def jsSplit (s : String) (sep : Char) : List String :=
  (splitChar sep s.data).map (fun l => ⟨l⟩)

/-- ASCII lower-casing of one character (all the strings compared by the
code after lower-casing are ASCII). -/
def lowerChar (c : Char) : Char :=
  if 65 ≤ c.toNat && c.toNat ≤ 90 then Char.ofNat (c.toNat + 32) else c

/-- `s.toLowerCase()`. -/
def jsToLower (s : String) : String := ⟨s.data.map lowerChar⟩

/-! ## UserController (src/api/controllers/UserController.ts) -/

/-- JS truthiness of a possibly-missing string body field: `undefined` and the
empty string are falsy. -/
def present (o : Option String) : Bool :=
  match o with
  | none => false
  | some s => s != ""

/-- The request body of `POST /users/register`.  `age` is `Option Int`: the
source coerces a non-number age with `Number(age) || 0`, modelled as the
default `0` for a missing/non-numeric field. -/
structure RegisterBody where
  firstName : Option String
  lastName : Option String
  email : Option String
  password : Option String
  age : Option Int
  photo : Option String
  deriving DecidableEq, Repr

/-- What a register request leaves behind: HTTP status, identity-provider
state, document store. -/
structure RegisterOutcome where
  status : Nat
  auth : AuthState
  store : Store
  deriving DecidableEq, Repr

namespace UserController

/-- The Firestore profile document built by `UserController.register`
(`photo ?? two-quote-empty` is `photo.getD ""`; no password field). -/
def registerProfile (uid fn ln email : String) (age : Option Int)
    (photo : Option String) (now : Nat) : Doc :=
  [("id", Value.str uid), ("firstName", Value.str fn), ("lastName", Value.str ln),
   ("email", Value.str email), ("age", Value.num (age.getD 0)),
   ("photo", Value.str (photo.getD "")), ("oauth", Value.strList []),
   ("createdAt", Value.time now), ("updatedAt", Value.time now),
   ("status", Value.str "offline")]

/-- `UserController.register`: 400 on a missing required field; then
`getUserByEmail` (409 if the auth user exists, 500 on a provider error other
than user-not-found, injected by `lookupErr`); then `auth.createUser` (a throw,
injected by `createErr`, reaches the outer catch: 500); then the Firestore
profile write (a throw, injected by `writeErr`, reaches the outer catch: 500
with the auth user already created and never rolled back); 201 on success. -/
def register (body : RegisterBody) (a : AuthState) (s : Store)
    (lookupErr createErr writeErr : Bool) (freshUid : String) (now : Nat) :
    RegisterOutcome :=
  if !(present body.firstName && present body.lastName &&
       present body.email && present body.password) then
    ⟨400, a, s⟩
  else
    let email := body.email.getD ""
    if lookupErr then ⟨500, a, s⟩
    else
      match getAuthUserByEmail a email with
      | some _ => ⟨409, a, s⟩
      | none =>
        if createErr then ⟨500, a, s⟩
        else
          let fn := body.firstName.getD ""
          let ln := body.lastName.getD ""
          let created : AuthUser :=
            ⟨freshUid, email, fn ++ " " ++ ln, body.password.getD ""⟩
          let a2 := a ++ [created]
          if writeErr then ⟨500, a2, s⟩
          else
            ⟨201, a2,
             insertA s freshUid (registerProfile freshUid fn ln email body.age body.photo now)⟩

/-- What a social-login request produces: HTTP status, document store, the
`user` and `token` fields of the JSON response. -/
structure SocialOutcome where
  status : Nat
  store : Store
  user : Option Doc
  token : Option String
  deriving DecidableEq, Repr

/-- The Firestore profile `UserController.socialLogin` builds for a first-time
social user: name split on a space into first/last, provider recorded in
`oauth`, no password field. -/
def socialProfile (uid email displayName picture provider : String)
    (now : Nat) : Doc :=
  let parts := jsSplit displayName ' '
  [("id", Value.str uid), ("firstName", Value.str (parts.getD 0 "")),
   ("lastName", Value.str (parts.getD 1 "")), ("email", Value.str email),
   ("age", Value.num 0), ("photo", Value.str picture),
   ("oauth", Value.strList [provider]), ("createdAt", Value.time now),
   ("updatedAt", Value.time now), ("status", Value.str "offline")]

/-- `UserController.socialLogin`: 400 when `idToken` is falsy; 401 when
`verifyIdToken` throws; otherwise look the profile up by the verified uid,
create it only when absent, and answer 200 with the profile and the submitted
token. -/
def socialLogin (verify : Verifier) (idToken : Option String) (s : Store)
    (now : Nat) : SocialOutcome :=
  match idToken with
  | none => ⟨400, s, none, none⟩
  | some tok =>
    if tok == "" then ⟨400, s, none, none⟩
    else
      match verify tok with
      | none => ⟨401, s, none, none⟩
      | some d =>
        let email := d.email.getD ""
        let displayName := d.name.getD ""
        let picture := d.picture.getD ""
        let provider := d.provider.getD "social"
        match GlobalDAO.getById s d.uid with
        | some p => ⟨200, s, some p, some tok⟩
        | none =>
          let s2 := insertA s d.uid
            (socialProfile d.uid email displayName picture provider now)
          ⟨200, s2, GlobalDAO.getById s2 d.uid, some tok⟩

/-- What a `DELETE /users/:id` request leaves behind: HTTP status, document
store, identity-provider state, and whether `auth.deleteUser` was attempted. -/
structure DeleteOutcome where
  status : Nat
  store : Store
  auth : AuthState
  authDeleteAttempted : Bool
  deriving DecidableEq, Repr

/-- `UserController.delete`: DAO delete by id; when it succeeds, attempt
`auth.deleteUser(id)` exactly when the requester uid equals the id or
`ALLOW_ADMIN_DELETE` lower-cases to "true" (a throw there, injected by
`authDeleteFails`, is swallowed) and answer 204 regardless.  When the DAO
delete fails the email fallback is dead code — `UserDAO` defines no
`findByEmail`, so the `typeof` guard in the source is false — and the
handler answers 404.  An unset `ALLOW_ADMIN_DELETE` is the empty string. -/
def deleteUser (s : Store) (a : AuthState) (id : String)
    (requesterUid : Option String) (allowAdminEnv : String)
    (authDeleteFails : Bool) : DeleteOutcome :=
  let r := GlobalDAO.delete s id
  if r.1 then
    let allowAdmin := jsToLower allowAdminEnv == "true"
    if requesterUid == some id || allowAdmin then
      if authDeleteFails then ⟨204, r.2, a, true⟩
      else ⟨204, r.2, removeAuthUser a id, true⟩
    else ⟨204, r.2, a, false⟩
  else ⟨404, r.2, a, false⟩

end UserController

/-! ## Auth middleware (src/api/middleware/auth.ts) -/

/-- A double-quote as a string. -/
def dquote : String := "\""

/-- A single-quote as a string (character code 39). -/
def squote : String := String.mk [Char.ofNat 39]

/-- The middleware strips one pair of surrounding single or double quotes
(`idToken.slice(1, -1)`) that shells or tools may add around the token. -/
def stripQuotes (t : String) : String :=
  if (jsStartsWith t dquote && jsEndsWith t dquote) ||
     (jsStartsWith t squote && jsEndsWith t squote) then
    jsDropLast (jsDrop t 1)
  else t

/-- The token the middleware extracts from a header that passed the
`Bearer ` prefix check: drop the 7-character prefix, trim, strip quotes. -/
def extractToken (header : String) : String :=
  stripQuotes (jsTrim (jsDrop header 7))

/-- The middleware either responds itself (the route handler is never
invoked) or proceeds into the handler with `req.user` set to the verified
uid and email. -/
inductive MiddlewareResult where
  | respond (status : Nat)
  | proceed (uid : String) (email : Option String)
  deriving DecidableEq, Repr

/-- `authMiddleware`: 401 on a missing/empty Authorization header, 401 when
the trimmed header lacks the `Bearer ` prefix, 400 when the extracted token
is not three dot-separated parts (it is then never shown to the identity
provider), 401 when `verifyIdToken` throws, and otherwise `next()` with
`\x7b uid, email \x7d` attached to the request. -/
def authMiddleware (verify : Verifier) (authHeader : Option String) :
    MiddlewareResult :=
  let header := jsTrim (authHeader.getD "")
  if header == "" then MiddlewareResult.respond 401
  else if !(jsStartsWith header "Bearer ") then MiddlewareResult.respond 401
  else
    let idToken := extractToken header
    if (jsSplit idToken '.').length != 3 then MiddlewareResult.respond 400
    else
      match verify idToken with
      | none => MiddlewareResult.respond 401
      | some d => MiddlewareResult.proceed d.uid d.email

/-! ## Legacy bcrypt register (src/api/models/User.ts: `register`, with the
Realtime-Database `createUser`/`findUserByEmail` DAO of src/api/dao) -/

namespace LegacyRegister

/-- Placeholder for the external bcrypt library: `bcrypt.hash(password, 10)`.
Only the presence of the resulting field in the stored document matters to
the properties proved here, never the hash value itself. -/
def bcryptHash (password : String) : String := "bcrypt2b10" ++ password

/-- `findUserByEmail`: the Realtime-Database query
`orderByChild("email").equalTo(email)`, returning the first user document
whose `email` field matches. -/
def findUserByEmail (s : Store) (email : String) : Option Doc :=
  (s.find? (fun p => getField p.2 "email" == some (Value.str email))).map
    (fun p => p.2)

/-- The user record the legacy `register` stores — it DOES contain a
`password` field holding the bcrypt hash. -/
def legacyUserDoc (id fn ln email hashed : String) (age : Option Int)
    (photo : Option String) (now : Nat) : Doc :=
  [("id", Value.str id), ("firstName", Value.str fn), ("lastName", Value.str ln),
   ("email", Value.str email), ("age", Value.num (age.getD 0)),
   ("photo", Value.str (photo.getD "")), ("password", Value.str hashed),
   ("oauth", Value.strList []), ("createdAt", Value.time now),
   ("updatedAt", Value.time now), ("status", Value.str "offline")]

/-- The legacy `register` handler: 400 on missing fields, 409 when a user
document with the email exists, otherwise hash the password with bcrypt and
write the full user record — hashed password included — to the document
store under a fresh uuid (the `freshId` parameter), answering 200. -/
def register (body : RegisterBody) (s : Store) (freshId : String)
    (now : Nat) : Nat × Store :=
  if !(present body.firstName && present body.lastName &&
       present body.email && present body.password) then
    (400, s)
  else
    let email := body.email.getD ""
    match findUserByEmail s email with
    | some _ => (409, s)
    | none =>
      let hashed := bcryptHash (body.password.getD "")
      let doc := legacyUserDoc freshId (body.firstName.getD "")
        (body.lastName.getD "") email hashed body.age body.photo now
      (200, insertA s freshId doc)

end LegacyRegister

/-! ## Claims about the generic DAO -/

theorem mergeDocs_append (base xs ys : Doc) :
    mergeDocs base (xs ++ ys) = mergeDocs (mergeDocs base xs) ys :=
  List.foldl_append _ _ _ _

/-- Claim C3: for every input document, the generic DAO create operation
inserts the document with server-set `createdAt` and `updatedAt` timestamps
added, and returns the generated id of the newly inserted document. -/
theorem create_inserts_with_timestamps (s : Store) (genId : String)
    (doc : Doc) (now : Nat) (hfresh : lookupA s genId = none) :
    (GlobalDAO.create s genId doc now).1 = genId ∧
    (∃ d, lookupA (GlobalDAO.create s genId doc now).2 genId = some d ∧
      getField d "createdAt" = some (Value.time now) ∧
      getField d "updatedAt" = some (Value.time now) ∧
      ∀ k, k ≠ "createdAt" → k ≠ "updatedAt" → getField d k = getField doc k) ∧
    ∀ k, k ≠ genId → lookupA (GlobalDAO.create s genId doc now).2 k = lookupA s k := by
  refine ⟨rfl, ⟨mergeDocs doc [("createdAt", Value.time now), ("updatedAt", Value.time now)],
    lookupA_insertA_self _ _ _, ?_, ?_, ?_⟩, fun k hk => lookupA_insertA_ne _ _ _ _ hk⟩
  · show getField (insertA (insertA doc "createdAt" (Value.time now))
      "updatedAt" (Value.time now)) "createdAt" = some (Value.time now)
    rw [getField, lookupA_insertA_ne _ _ _ _ (by decide),
      lookupA_insertA_self]
  · exact lookupA_insertA_self _ _ _
  · intro k hc hu
    show getField (insertA (insertA doc "createdAt" (Value.time now))
      "updatedAt" (Value.time now)) k = getField doc k
    rw [getField, lookupA_insertA_ne _ _ _ _ hu]
    exact lookupA_insertA_ne _ _ _ _ hc

/-- Witness for C3 at a concrete store, document and generated id. -/
theorem create_inserts_with_timestamps_witness :
    lookupA ([("a", [("x", Value.num 1)])] : Store) "b" = none ∧
    (GlobalDAO.create [("a", [("x", Value.num 1)])] "b" [("x", Value.num 2)] 7).1 = "b" := by
  have h := create_inserts_with_timestamps [("a", [("x", Value.num 1)])] "b"
    [("x", Value.num 2)] 7 (by decide)
  exact ⟨by decide, h.1⟩

/-- Claim C4: the generic DAO delete operation checks existence and then
removes: `false` leaving the store unchanged when the id is absent, `true`
with the document removed (and every other document untouched) when present. -/
theorem delete_checks_then_removes (s : Store) (id : String) :
    (lookupA s id = none → GlobalDAO.delete s id = (false, s)) ∧
    ∀ d, lookupA s id = some d →
      (GlobalDAO.delete s id).1 = true ∧
      lookupA (GlobalDAO.delete s id).2 id = none ∧
      ∀ k, k ≠ id → lookupA (GlobalDAO.delete s id).2 k = lookupA s k := by
  constructor
  · intro h
    simp [GlobalDAO.delete, h]
  · intro d h
    refine ⟨by simp [GlobalDAO.delete, h], ?_, ?_⟩
    · simp only [GlobalDAO.delete, h]
      exact lookupA_removeA_self _ _
    · intro k hk
      simp only [GlobalDAO.delete, h]
      exact lookupA_removeA_ne _ _ _ hk

/-- Witness for C4: a present id is deleted with `true`, an absent id
answers `false`. -/
theorem delete_checks_then_removes_witness :
    lookupA ([("a", [("x", Value.num 1)])] : Store) "a" = some [("x", Value.num 1)] ∧
    (GlobalDAO.delete [("a", [("x", Value.num 1)])] "a").1 = true := by
  have h := (delete_checks_then_removes [("a", [("x", Value.num 1)])] "a").2
    [("x", Value.num 1)] (by decide)
  exact ⟨by decide, h.1⟩

/-- Claim C5: on an existing document, the generic DAO update operation
patches exactly the given fields plus the `updatedAt` timestamp: every stored
field not named in the patch and different from `updatedAt` keeps its value,
`updatedAt` becomes the server timestamp, and (for a duplicate-free patch)
every patched field other than `updatedAt` takes the patch value. -/
theorem update_patches_given_fields (s : Store) (id : String) (d data : Doc)
    (now : Nat) (hd : lookupA s id = some d) :
    ∃ s2, GlobalDAO.update s id data now = some s2 ∧
    ∃ d2, lookupA s2 id = some d2 ∧
      getField d2 "updatedAt" = some (Value.time now) ∧
      (∀ k, k ∉ keysA data → k ≠ "updatedAt" → getField d2 k = getField d k) ∧
      ((keysA data).Nodup → ∀ k, k ∈ keysA data → k ≠ "updatedAt" →
        getField d2 k = getField data k) := by
  refine ⟨insertA s id (mergeDocs d (data ++ [("updatedAt", Value.time now)])),
    by simp only [GlobalDAO.update, hd], _, lookupA_insertA_self _ _ _, ?_, ?_, ?_⟩
  · rw [mergeDocs_append]
    show getField (insertA (mergeDocs d data) "updatedAt" (Value.time now))
      "updatedAt" = some (Value.time now)
    exact lookupA_insertA_self _ _ _
  · intro k hk hu
    have hmem : k ∉ keysA (data ++ [("updatedAt", Value.time now)]) := by
      rw [show keysA (data ++ [("updatedAt", Value.time now)])
          = keysA data ++ ["updatedAt"] from List.map_append _ _ _]
      intro hm
      rcases List.mem_append.mp hm with h1 | h2
      · exact hk h1
      · exact hu (List.mem_singleton.mp h2)
    exact getField_mergeDocs_not_mem _ _ _ hmem
  · intro hnd k hk hu
    rw [mergeDocs_append]
    have h1 : getField (insertA (mergeDocs d data) "updatedAt" (Value.time now)) k
        = getField (mergeDocs d data) k := lookupA_insertA_ne _ _ _ _ hu
    have h2 : getField (mergeDocs d data) k = getField data k :=
      getField_mergeDocs_mem _ _ _ hnd hk
    show getField (insertA (mergeDocs d data) "updatedAt" (Value.time now)) k
      = getField data k
    rw [h1, h2]

/-- Witness for C5 at a concrete store and patch. -/
theorem update_patches_given_fields_witness :
    lookupA ([("a", [("x", Value.num 1), ("y", Value.num 2)])] : Store) "a" =
      some [("x", Value.num 1), ("y", Value.num 2)] ∧
    GlobalDAO.update [("a", [("x", Value.num 1), ("y", Value.num 2)])] "a"
      [("y", Value.num 9)] 7 ≠ none := by
  have h := update_patches_given_fields
    [("a", [("x", Value.num 1), ("y", Value.num 2)])] "a"
    [("x", Value.num 1), ("y", Value.num 2)] [("y", Value.num 9)] 7 (by decide)
  rcases h with ⟨s2, hs2, _⟩
  exact ⟨by decide, by rw [hs2]; exact fun hc => Option.noConfusion hc⟩

/-- Claim C6, counterexample: a stored document whose data itself carries an
`id` field (exactly what `register`/`socialLogin` store) is returned by
`getById` with that stored `id` value, not with the requested document id,
because the stored data is spread after the `id: doc.id` key. -/
theorem getById_id_override_counterexample :
    ∃ r, GlobalDAO.getById [("k", [("id", Value.str "other")])] "k" = some r ∧
      getField r "id" ≠ some (Value.str "k") :=
  ⟨[("id", Value.str "other"), ("id", Value.str "k")], by decide, by decide⟩

/-- Claim C6 as amended: `getById` returns `none` exactly when no document
with the id exists; otherwise it returns the stored record, which agrees with
the stored data on every stored field, and whose `id` field is the requested
document id when the stored data itself has no `id` field (a stored `id`
field wins, being spread after the key). -/
theorem getById_amended (s : Store) (id : String) :
    (GlobalDAO.getById s id = none ↔ lookupA s id = none) ∧
    ∀ data, lookupA s id = some data →
      ∃ r, GlobalDAO.getById s id = some r ∧
        ("id" ∉ keysA data → getField r "id" = some (Value.str id)) ∧
        ((keysA data).Nodup → ∀ k, k ∈ keysA data → getField r k = getField data k) := by
  constructor
  · constructor
    · intro h
      cases hl : lookupA s id with
      | none => rfl
      | some d => rw [GlobalDAO.getById, hl] at h; exact Option.noConfusion h
    · intro h
      rw [GlobalDAO.getById, h]
  · intro data h
    refine ⟨mergeDocs [("id", Value.str id)] data, by rw [GlobalDAO.getById, h], ?_, ?_⟩
    · intro hm
      rw [getField_mergeDocs_not_mem _ _ _ hm]
      exact lookupA_insertA_self [] "id" (Value.str id)
    · intro hnd k hk
      exact getField_mergeDocs_mem _ _ _ hnd hk

/-- Witness for the amended C6 at a concrete store. -/
theorem getById_amended_witness :
    lookupA ([("k", [("email", Value.str "e")])] : Store) "k" =
      some [("email", Value.str "e")] ∧
    GlobalDAO.getById [("k", [("email", Value.str "e")])] "k" ≠ none := by
  have h := (getById_amended [("k", [("email", Value.str "e")])] "k").2
    [("email", Value.str "e")] (by decide)
  rcases h with ⟨r, hr, _⟩
  exact ⟨by decide, by rw [hr]; exact fun hc => Option.noConfusion hc⟩

/-! ## Claims about passwords in the document store -/

/-- Claim C1, counterexample: the bcrypt-based `register` of
src/api/models/User.ts writes a user document to the document store that DOES
contain a `password` field (the bcrypt hash), so not every profile document
the program writes is password-free. -/
theorem register_password_counterexample :
    ∃ st, LegacyRegister.register
        ⟨some "Ana", some "B", some "a@b.c", some "pw", none, none⟩ [] "u1" 7 =
        (200, st) ∧
      ∃ d, lookupA st "u1" = some d ∧ getField d "password" ≠ none :=
  ⟨[("u1", LegacyRegister.legacyUserDoc "u1" "Ana" "B" "a@b.c"
      (LegacyRegister.bcryptHash "pw") none none 7)], by decide,
   LegacyRegister.legacyUserDoc "u1" "Ana" "B" "a@b.c"
      (LegacyRegister.bcryptHash "pw") none none 7, by decide, by decide⟩

/-- Claim C1 as amended: the identity-provider-backed flows keep passwords
out of the document store — the profile documents written by
`UserController.register` and `UserController.socialLogin` contain no
`password` field, and the generic DAO create adds only timestamps, so its
written document lacks a `password` field whenever its input does — while
the legacy bcrypt `register` stores a hashed `password` field. -/
theorem no_password_in_identity_provider_flows (uid fn ln email : String)
    (age : Option Int) (photo : Option String) (now : Nat)
    (displayName picture provider : String) (doc : Doc) (s : Store)
    (genId : String) :
    getField (UserController.registerProfile uid fn ln email age photo now)
      "password" = none ∧
    getField (UserController.socialProfile uid email displayName picture
      provider now) "password" = none ∧
    (getField doc "password" = none →
      ∃ d, lookupA (GlobalDAO.create s genId doc now).2 genId = some d ∧
        getField d "password" = none) := by
  refine ⟨rfl, rfl, ?_⟩
  intro h
  refine ⟨mergeDocs doc [("createdAt", Value.time now), ("updatedAt", Value.time now)],
    lookupA_insertA_self _ _ _, ?_⟩
  show getField (insertA (insertA doc "createdAt" (Value.time now))
    "updatedAt" (Value.time now)) "password" = none
  rw [getField, lookupA_insertA_ne _ _ _ _ (by decide),
    lookupA_insertA_ne _ _ _ _ (by decide)]
  exact h

/-- Witness for the amended C1: the DAO-create clause at a password-free
concrete document. -/
theorem no_password_in_identity_provider_flows_witness :
    getField ([("email", Value.str "e")] : Doc) "password" = none ∧
    ∃ d, lookupA (GlobalDAO.create [] "g" [("email", Value.str "e")] 3).2 "g" = some d ∧
      getField d "password" = none := by
  have h := (no_password_in_identity_provider_flows "u" "f" "l" "e" none none 3
    "dn" "pic" "prov" [("email", Value.str "e")] [] "g").2.2 (by decide)
  exact ⟨by decide, h⟩

/-! ## Claims about the register flow -/

theorem find?_append_none {α : Type} (p : α → Bool) (l1 l2 : List α)
    (h : l1.find? p = none) : (l1 ++ l2).find? p = l2.find? p := by
  induction l1 with
  | nil => rfl
  | cons a t ih =>
    cases hp : p a with
    | true => simp [List.find?, hp] at h
    | false =>
      simp only [List.find?, hp] at h
      simp only [List.cons_append, List.find?, hp]
      exact ih h

/-- Claim C2: register sequences check-existing, identity-provider creation
and the profile-document write, and applies no compensation: when the profile
write throws after the identity-provider user was created, register answers
500 and leaves the created identity-provider user in place (and writes no
profile document). -/
theorem register_no_compensation (body : RegisterBody) (a : AuthState)
    (s : Store) (freshUid : String) (now : Nat)
    (hfn : present body.firstName = true) (hln : present body.lastName = true)
    (hem : present body.email = true) (hpw : present body.password = true)
    (hnew : getAuthUserByEmail a (body.email.getD "") = none) :
    (UserController.register body a s false false true freshUid now).status = 500 ∧
    (UserController.register body a s false false true freshUid now).store = s ∧
    getAuthUserByEmail
      (UserController.register body a s false false true freshUid now).auth
      (body.email.getD "") =
      some ⟨freshUid, body.email.getD "",
        body.firstName.getD "" ++ " " ++ body.lastName.getD "",
        body.password.getD ""⟩ := by
  have hout : UserController.register body a s false false true freshUid now =
      ⟨500, a ++ [⟨freshUid, body.email.getD "",
        body.firstName.getD "" ++ " " ++ body.lastName.getD "",
        body.password.getD ""⟩], s⟩ := by
    rw [UserController.register]
    simp only [hfn, hln, hem, hpw, Bool.and_self, Bool.not_true, hnew,
      Bool.false_eq_true, if_false, if_true]
  rw [hout]
  refine ⟨rfl, rfl, ?_⟩
  rw [getAuthUserByEmail, find?_append_none _ _ _ hnew]
  simp [List.find?]

/-- Witness for C2 at a concrete body and empty external state. -/
theorem register_no_compensation_witness :
    (UserController.register ⟨some "A", some "B", some "a@b.c", some "p", none,
      none⟩ [] [] false false true "u1" 5).status = 500 ∧
    getAuthUserByEmail (UserController.register ⟨some "A", some "B",
      some "a@b.c", some "p", none, none⟩ [] [] false false true "u1" 5).auth
      "a@b.c" = some ⟨"u1", "a@b.c", "A B", "p"⟩ := by
  have h := register_no_compensation
    ⟨some "A", some "B", some "a@b.c", some "p", none, none⟩ [] [] "u1" 5
    (by decide) (by decide) (by decide) (by decide) (by decide)
  exact ⟨h.1, h.2.2⟩

/-- Claim C7: the register handler answers 400 when a required field is
missing from the body; 409 — creating no identity-provider user and writing
no profile document — when (the existence check completing) an
identity-provider user with the email already exists; and 201 when every
step succeeds. -/
theorem register_status_contract (body : RegisterBody) (a : AuthState)
    (s : Store) (le ce we : Bool) (freshUid : String) (now : Nat) :
    ((body.firstName = none ∨ body.lastName = none ∨ body.email = none ∨
        body.password = none) →
      UserController.register body a s le ce we freshUid now = ⟨400, a, s⟩) ∧
    (present body.firstName = true → present body.lastName = true →
      present body.email = true → present body.password = true →
      ∀ u, getAuthUserByEmail a (body.email.getD "") = some u →
      UserController.register body a s false ce we freshUid now = ⟨409, a, s⟩) ∧
    (present body.firstName = true → present body.lastName = true →
      present body.email = true → present body.password = true →
      getAuthUserByEmail a (body.email.getD "") = none →
      (UserController.register body a s false false false freshUid now).status
        = 201) := by
  refine ⟨?_, ?_, ?_⟩
  · intro hmiss
    have hfalse : (present body.firstName && present body.lastName &&
        present body.email && present body.password) = false := by
      rcases hmiss with h | h | h | h <;> simp [h, present]
    rw [UserController.register, hfalse]
    rfl
  · intro hfn hln hem hpw u hu
    rw [UserController.register]
    simp only [hfn, hln, hem, hpw, Bool.and_self, Bool.not_true, hu,
      Bool.false_eq_true, if_false]
  · intro hfn hln hem hpw hnew
    rw [UserController.register]
    simp only [hfn, hln, hem, hpw, Bool.and_self, Bool.not_true, hnew,
      Bool.false_eq_true, if_false]

/-- Witness for C7: the 409 case at a concrete body and provider state. -/
theorem register_status_contract_witness :
    getAuthUserByEmail [⟨"u0", "a@b.c", "X Y", "q"⟩] "a@b.c" =
      some ⟨"u0", "a@b.c", "X Y", "q"⟩ ∧
    UserController.register ⟨some "A", some "B", some "a@b.c", some "p", none,
        none⟩ [⟨"u0", "a@b.c", "X Y", "q"⟩] [] false true true "u1" 5 =
      ⟨409, [⟨"u0", "a@b.c", "X Y", "q"⟩], []⟩ := by
  have h := (register_status_contract
    ⟨some "A", some "B", some "a@b.c", some "p", none, none⟩
    [⟨"u0", "a@b.c", "X Y", "q"⟩] [] false true true "u1" 5).2.1
    (by decide) (by decide) (by decide) (by decide)
    ⟨"u0", "a@b.c", "X Y", "q"⟩ (by decide)
  exact ⟨by decide, h⟩

/-! ## Claims about the auth middleware -/

/-- Claim C8, counterexample: a token that any verifier rejects (here it is
not even shaped like a JWT) makes the middleware respond 400, not 401 — the
structural three-part check answers before the identity provider is ever
consulted. -/
theorem auth_middleware_counterexample :
    extractToken (jsTrim "Bearer abc") = "abc" ∧
    (fun _ => (none : Option DecodedToken)) "abc" = (none : Option DecodedToken) ∧
    authMiddleware (fun _ => none) (some "Bearer abc") ≠
      MiddlewareResult.respond 401 ∧
    authMiddleware (fun _ => none) (some "Bearer abc") =
      MiddlewareResult.respond 400 := by
  exact ⟨by decide, rfl, by decide, by decide⟩

/-- Claim C8 as amended: a missing Authorization header, a header without the
`Bearer ` prefix, or a three-part token failing the identity provider's
verification each make the middleware respond 401 without invoking the route
handler; a token that is not three dot-separated parts gets 400 without the
provider being consulted; and when verification succeeds the handler runs
with the verified uid and email attached. -/
theorem auth_middleware_amended (verify : Verifier) (h : String) :
    authMiddleware verify none = MiddlewareResult.respond 401 ∧
    (jsTrim h ≠ "" → jsStartsWith (jsTrim h) "Bearer " = false →
      authMiddleware verify (some h) = MiddlewareResult.respond 401) ∧
    (jsTrim h ≠ "" → jsStartsWith (jsTrim h) "Bearer " = true →
      ((jsSplit (extractToken (jsTrim h)) '.').length ≠ 3 →
        authMiddleware verify (some h) = MiddlewareResult.respond 400) ∧
      ((jsSplit (extractToken (jsTrim h)) '.').length = 3 →
        (verify (extractToken (jsTrim h)) = none →
          authMiddleware verify (some h) = MiddlewareResult.respond 401) ∧
        ∀ d, verify (extractToken (jsTrim h)) = some d →
          authMiddleware verify (some h) =
            MiddlewareResult.proceed d.uid d.email)) := by
  refine ⟨rfl, ?_, ?_⟩
  · intro hne hpre
    have hne2 : (jsTrim h == "") = false := by
      simp only [beq_eq_false_iff_ne, ne_eq]; exact hne
    simp only [authMiddleware, Option.getD, hne2, Bool.false_eq_true, if_false,
      hpre, Bool.not_false, if_true]
  · intro hne hpre
    have hne2 : (jsTrim h == "") = false := by
      simp only [beq_eq_false_iff_ne, ne_eq]; exact hne
    constructor
    · intro hlen
      have hlen2 : ((jsSplit (extractToken (jsTrim h)) '.').length != 3) = true := by
        simp only [bne_iff_ne, ne_eq]; exact hlen
      simp only [authMiddleware, Option.getD, hne2, Bool.false_eq_true, if_false,
        hpre, Bool.not_true, hlen2, if_true]
    · intro hlen
      have hlen2 : ((jsSplit (extractToken (jsTrim h)) '.').length != 3) = false := by
        simp only [bne_eq_false_iff_eq]; exact hlen
      constructor
      · intro hv
        simp only [authMiddleware, Option.getD, hne2, Bool.false_eq_true,
          if_false, hpre, Bool.not_true, hlen2, hv]
      · intro d hv
        simp only [authMiddleware, Option.getD, hne2, Bool.false_eq_true,
          if_false, hpre, Bool.not_true, hlen2, hv]

/-- Witness for the amended C8: the success case at a concrete verifier and
header. -/
theorem auth_middleware_amended_witness :
    jsTrim "Bearer a.b.c" ≠ "" ∧
    authMiddleware (fun _ => some ⟨"u", some "e", none, none, none⟩)
      (some "Bearer a.b.c") = MiddlewareResult.proceed "u" (some "e") := by
  have h := ((auth_middleware_amended
    (fun _ => some ⟨"u", some "e", none, none, none⟩) "Bearer a.b.c").2.2
    (by decide) (by decide)).2 (by decide)
  exact ⟨by decide, h.2 ⟨"u", some "e", none, none, none⟩ rfl⟩

/-! ## Claims about social login -/

/-- Claim C9: on a token that verifies to a uid whose profile document
already exists, socialLogin writes nothing — the store is unchanged — and
answers 200 with that existing profile and the submitted token; a profile is
written only when none exists for the verified uid. -/
theorem social_login_existing_profile (verify : Verifier) (tok : String)
    (s : Store) (now : Nat) (d : DecodedToken)
    (htok : tok ≠ "") (hv : verify tok = some d) :
    (∀ p, GlobalDAO.getById s d.uid = some p →
      UserController.socialLogin verify (some tok) s now = ⟨200, s, some p, some tok⟩) ∧
    (GlobalDAO.getById s d.uid = none →
      (UserController.socialLogin verify (some tok) s now).store =
        insertA s d.uid (UserController.socialProfile d.uid (d.email.getD "")
          (d.name.getD "") (d.picture.getD "") (d.provider.getD "social") now)) := by
  have htok2 : (tok == "") = false := by
    simp only [beq_eq_false_iff_ne, ne_eq]; exact htok
  constructor
  · intro p hp
    simp only [UserController.socialLogin, htok2, Bool.false_eq_true, if_false,
      hv, hp]
  · intro hp
    simp only [UserController.socialLogin, htok2, Bool.false_eq_true, if_false,
      hv, hp]

/-- Witness for C9: an existing profile is returned untouched. -/
theorem social_login_existing_profile_witness :
    ("t.t.t" : String) ≠ "" ∧
    GlobalDAO.getById [("u", [("email", Value.str "e")])] "u" =
      some [("email", Value.str "e"), ("id", Value.str "u")] ∧
    UserController.socialLogin (fun _ => some ⟨"u", none, none, none, none⟩)
      (some "t.t.t") [("u", [("email", Value.str "e")])] 5 =
      ⟨200, [("u", [("email", Value.str "e")])],
        some [("email", Value.str "e"), ("id", Value.str "u")], some "t.t.t"⟩ := by
  have h := (social_login_existing_profile
    (fun _ => some ⟨"u", none, none, none, none⟩) "t.t.t"
    [("u", [("email", Value.str "e")])] 5 ⟨"u", none, none, none, none⟩
    (by decide) rfl).1 [("email", Value.str "e"), ("id", Value.str "u")]
    (by decide)
  exact ⟨by decide, by decide, h⟩

/-! ## Claims about the delete handler -/

/-- Claim C10, counterexample: with `ALLOW_ADMIN_DELETE` set to `TRUE` — a
string different from `true` — and a requester who is not the target, the
identity-provider deletion is still attempted, because the code lower-cases
the environment variable before comparing. -/
theorem delete_admin_env_counterexample :
    (GlobalDAO.delete [("x", ([] : Doc))] "x").1 = true ∧
    (UserController.deleteUser [("x", [])] [] "x" (some "r") "TRUE"
      false).authDeleteAttempted = true ∧
    ¬(some "r" = some "x" ∨ "TRUE" = "true") := by
  exact ⟨by decide, by decide, by decide⟩

/-- Claim C10 as amended: the handler answers 204 whenever the DAO delete of
the profile document succeeds, even when the identity-provider deletion
throws (then the provider's state is untouched while success is reported);
and the identity-provider deletion is attempted exactly when the profile was
deleted and the requester's uid equals the target id or `ALLOW_ADMIN_DELETE`
lower-cases to the string `true`. -/
theorem delete_user_amended (s : Store) (a : AuthState) (id : String)
    (requesterUid : Option String) (env : String) (adf : Bool) :
    ((GlobalDAO.delete s id).1 = true →
      (UserController.deleteUser s a id requesterUid env adf).status = 204) ∧
    ((UserController.deleteUser s a id requesterUid env adf).authDeleteAttempted
        = true ↔
      ((GlobalDAO.delete s id).1 = true ∧
        (requesterUid = some id ∨ jsToLower env = "true"))) ∧
    ((GlobalDAO.delete s id).1 = true → adf = true →
      (UserController.deleteUser s a id requesterUid env adf).auth = a) := by
  by_cases hd : (GlobalDAO.delete s id).1 = true
  · by_cases hc : (requesterUid == some id || jsToLower env == "true") = true
    · have hc2 : requesterUid = some id ∨ jsToLower env = "true" := by
        rcases Bool.or_eq_true_iff.mp hc with h1 | h1
        · exact Or.inl (beq_iff_eq.mp h1)
        · exact Or.inr (beq_iff_eq.mp h1)
      cases adf with
      | true =>
        have hout : UserController.deleteUser s a id requesterUid env true =
            ⟨204, (GlobalDAO.delete s id).2, a, true⟩ := by
          simp only [UserController.deleteUser, hd, hc, if_true]
        rw [hout]
        exact ⟨fun _ => rfl, ⟨fun _ => ⟨hd, hc2⟩, fun _ => rfl⟩, fun _ _ => rfl⟩
      | false =>
        have hout : UserController.deleteUser s a id requesterUid env false =
            ⟨204, (GlobalDAO.delete s id).2, removeAuthUser a id, true⟩ := by
          simp only [UserController.deleteUser, hd, hc, if_true,
            Bool.false_eq_true, if_false]
        rw [hout]
        exact ⟨fun _ => rfl, ⟨fun _ => ⟨hd, hc2⟩, fun _ => rfl⟩,
          fun _ hf => Bool.noConfusion hf⟩
    · have hc2 : ¬(requesterUid = some id ∨ jsToLower env = "true") := by
        intro hor
        apply hc
        rcases hor with h1 | h1
        · exact Bool.or_eq_true_iff.mpr (Or.inl (beq_iff_eq.mpr h1))
        · exact Bool.or_eq_true_iff.mpr (Or.inr (beq_iff_eq.mpr h1))
      have hcf : (requesterUid == some id || jsToLower env == "true") = false := by
        cases hcb : (requesterUid == some id || jsToLower env == "true") with
        | true => exact absurd hcb hc
        | false => rfl
      have hout : UserController.deleteUser s a id requesterUid env adf =
          ⟨204, (GlobalDAO.delete s id).2, a, false⟩ := by
        simp only [UserController.deleteUser, hd, if_true, hcf,
          Bool.false_eq_true, if_false]
      rw [hout]
      exact ⟨fun _ => rfl, ⟨fun hf => Bool.noConfusion hf,
        fun hand => absurd hand.2 hc2⟩, fun _ _ => rfl⟩
  · have hdf : (GlobalDAO.delete s id).1 = false := by
      cases hb : (GlobalDAO.delete s id).1 with
      | true => exact absurd hb hd
      | false => rfl
    have hout : UserController.deleteUser s a id requesterUid env adf =
        ⟨404, (GlobalDAO.delete s id).2, a, false⟩ := by
      simp only [UserController.deleteUser, hdf, Bool.false_eq_true, if_false]
    rw [hout]
    exact ⟨fun hf => absurd hf hd, ⟨fun hf => Bool.noConfusion hf,
      fun hand => absurd hand.1 hd⟩, fun hf _ => absurd hf hd⟩

/-- Witness for the amended C10: a successful profile delete with a throwing
identity-provider deletion still answers 204 and leaves the provider state
unchanged. -/
theorem delete_user_amended_witness :
    (GlobalDAO.delete [("x", ([] : Doc))] "x").1 = true ∧
    (UserController.deleteUser [("x", [])] [⟨"x", "e", "n", "p"⟩] "x"
      (some "x") "" true).status = 204 ∧
    (UserController.deleteUser [("x", [])] [⟨"x", "e", "n", "p"⟩] "x"
      (some "x") "" true).auth = [⟨"x", "e", "n", "p"⟩] := by
  have h := delete_user_amended [("x", [])] [⟨"x", "e", "n", "p"⟩] "x"
    (some "x") "" true
  exact ⟨by decide, h.1 (by decide), h.2.2 (by decide) rfl⟩
